import Mathlib

/-!
Verification of the WeatherAnimations icon asset pipeline
(`convert_animated_weather_icons.py`, `convert_weather_icons.py`).

The development shallowly embeds the pure core of the pipeline:
the generated C condition resolver (`findAnimatedWeatherIcon`), the
monochrome bit packer (`frames_to_c_arrays`), the monochrome threshold
step (`convert_frames_to_monochrome`), the SVG animation-duration
extractor (`get_svg_animation_params`), the per-icon control flow of
`main`, and the synthetic frame transform of `extract_svg_frames`.
External effects (filesystem, rasterizer, PIL resize) appear as explicit
inputs; Python exceptions appear as `Option`/`Except` results.
-/

namespace WeatherAnimations

/-- One entry of the generated `animatedWeatherIcons[]` table
(`struct AnimatedIconMapping`): condition, variant ("day", "night" or ""),
the frame data, frame count and per-frame delay in milliseconds. -/
structure AnimatedIconMapping where
  condition : String
  variant : String
  frames : List (List Nat)
  frameCount : Nat
  frameDelay : Int
deriving DecidableEq

/-- Embedding of the generated C helper `findAnimatedWeatherIcon(condition, isDay)`.
The three C `for` loops over the sentinel-terminated table are first-match
scans (`List.find?`), and the final `return &animatedWeatherIcons[0]` is the
head of the table. -/
def findAnimatedWeatherIcon (table : List AnimatedIconMapping)
    (condition : String) (isDay : Bool) : Option AnimatedIconMapping :=
  let variant := if isDay then "day" else "night"
  match table.find? (fun r =>
      r.condition == condition && (r.variant == "" || r.variant == variant)) with
  | some r => some r
  | none =>
    match table.find? (fun r => r.condition == condition) with
    | some r => some r
    | none =>
      match table.find? (fun r => r.condition == "cloudy") with
      | some r => some r
      | none => table.head?

/-- Helper: `List.find?` returns the element at position `i` when it satisfies
the predicate and no earlier element does. -/
theorem find?_eq_of_first {α : Type} (p : α → Bool) :
    ∀ (l : List α) (i : Nat) (hi : i < l.length),
      p (l.get ⟨i, hi⟩) = true →
      (∀ j (hj : j < i), p (l.get ⟨j, Nat.lt_trans hj hi⟩) = false) →
      l.find? p = some (l.get ⟨i, hi⟩)
  | [], i, hi, _, _ => absurd hi (Nat.not_lt_zero i)
  | a :: l, 0, _, hp, _ => by
    have ha : p a = true := hp
    simp [List.find?, ha]
  | a :: l, i + 1, hi, hp, hfirst => by
    have ha : p a = false := hfirst 0 (Nat.succ_pos i)
    have ih := find?_eq_of_first p l i (Nat.lt_of_succ_lt_succ hi) hp
      (fun j hj => hfirst (j + 1) (Nat.succ_lt_succ hj))
    simp [List.find?, ha]
    exact ih

/-- The tier-1 predicate of the resolver: exact condition match, and the
record either has no variant or its variant matches `isDay`. -/
def tier1 (condition : String) (isDay : Bool) (r : AnimatedIconMapping) : Bool :=
  r.condition == condition &&
    (r.variant == "" || r.variant == (if isDay then "day" else "night"))

/-- C1: for every record present in the asset table, resolving with that exact
condition string and an `isDay` flag matching the record's variant (any `isDay`
when the variant is empty) returns that exact record, provided it is the first
record in table order satisfying the tier-1 predicate: tier 1 never falls
through to a lower tier when an exact match exists, and the first record in
canonical insertion order wins within the tier. -/
theorem resolver_exact_match_returns_record
    (table : List AnimatedIconMapping) (isDay : Bool)
    (i : Nat) (hi : i < table.length)
    (hc : tier1 (table.get ⟨i, hi⟩).condition isDay (table.get ⟨i, hi⟩) = true)
    (hfirst : ∀ j (hj : j < i),
      tier1 (table.get ⟨i, hi⟩).condition isDay
        (table.get ⟨j, Nat.lt_trans hj hi⟩) = false) :
    findAnimatedWeatherIcon table (table.get ⟨i, hi⟩).condition isDay =
      some (table.get ⟨i, hi⟩) := by
  have h1 : table.find?
      (fun r => r.condition == (table.get ⟨i, hi⟩).condition &&
        (r.variant == "" || r.variant == (if isDay then "day" else "night"))) =
      some (table.get ⟨i, hi⟩) :=
    find?_eq_of_first _ table i hi hc hfirst
  simp only [findAnimatedWeatherIcon, h1]

/-- A concrete three-record table in canonical order, used as witness input:
`cloudy` (no variant), then the two `sunny` variants. -/
def demoTable : List AnimatedIconMapping :=
  [⟨"cloudy", "", [], 10, 200⟩,
   ⟨"sunny", "day", [], 10, 200⟩,
   ⟨"sunny", "night", [], 10, 150⟩]

/-- Witness for C1: in `demoTable`, resolving `("sunny", isDay := false)`
returns the `sunny`/`night` record at index 2. -/
theorem resolver_exact_match_returns_record_witness :
    findAnimatedWeatherIcon demoTable
        (demoTable.get ⟨2, by decide⟩).condition false =
      some (demoTable.get ⟨2, by decide⟩) :=
  resolver_exact_match_returns_record demoTable false 2 (by decide)
    (by decide) (by decide)

/-- C4: resolving a condition string matched by no record of a non-empty table
returns the first record whose condition is `"cloudy"` when one exists, and
otherwise the very first record of the table; it never returns "no result". -/
theorem resolver_unknown_condition_fallback
    (table : List AnimatedIconMapping) (condition : String) (isDay : Bool)
    (hne : table ≠ [])
    (hunk : ∀ r ∈ table, r.condition ≠ condition) :
    findAnimatedWeatherIcon table condition isDay =
      some ((table.find? (fun r => r.condition == "cloudy")).getD
        (table.head hne)) := by
  have h1 : table.find? (fun r => r.condition == condition &&
      (r.variant == "" || r.variant == (if isDay then "day" else "night"))) =
      none := by
    rw [List.find?_eq_none]
    intro r hr
    simp [hunk r hr]
  have h2 : table.find? (fun r => r.condition == condition) = none := by
    rw [List.find?_eq_none]
    intro r hr
    simp [hunk r hr]
  simp only [findAnimatedWeatherIcon, h1, h2]
  match h3 : table.find? (fun r => r.condition == "cloudy") with
  | some c => simp [h3]
  | none => simp [h3, List.head?_eq_head hne]

/-- Witness for C4: in `demoTable`, the unknown condition `"snowy"` resolves to
the `cloudy` record (tier 3). -/
theorem resolver_unknown_condition_fallback_witness :
    findAnimatedWeatherIcon demoTable "snowy" true =
      some ((demoTable.find? (fun r => r.condition == "cloudy")).getD
        (demoTable.head (by decide))) :=
  resolver_unknown_condition_fallback demoTable "snowy" true (by decide)
    (by decide)

/-! ## Monochrome packer (`frames_to_c_arrays`, `convert_frames_to_monochrome`) -/

/-- A raster image as fed to the packer: dimensions plus `getpixel((x, y))`. -/
structure PackImage where
  width : Nat
  height : Nat
  pixel : Nat → Nat → Nat

/-- The fixed buffer capacity `bitmap_size = 1024` of `frames_to_c_arrays`. -/
def bitmap_size : Nat := 1024

/-- The body of the per-pixel loop of `frames_to_c_arrays`: compute
`byte_index = (y // 8) * width + x`, and when it is within bounds and the
pixel is black (`== 0`), OR bit `y % 8` into that byte. -/
def packStep (img : PackImage) (bm : List Nat) (yx : Nat × Nat) : List Nat :=
  let byte_index := (yx.1 / 8) * img.width + yx.2
  if byte_index < bitmap_size then
    if img.pixel yx.2 yx.1 == 0 then
      bm.set byte_index ((bm.getD byte_index 0) ||| (1 <<< (yx.1 % 8)))
    else bm
  else bm

/-- The per-frame bit packing of `frames_to_c_arrays`: a 1024-byte buffer
initialised to zeros, written by the nested `for y / for x` loops. -/
def frames_to_c_arrays_bitmap (img : PackImage) : List Nat :=
  (List.range img.height).foldl
    (fun bm y =>
      (List.range img.width).foldl (fun bm x => packStep img bm (y, x)) bm)
    (List.replicate bitmap_size 0)

/-- The pixel coordinates visited by the nested loops, in visiting order. -/
def pixelPairs (img : PackImage) : List (Nat × Nat) :=
  (List.range img.height).flatMap (fun y =>
    (List.range img.width).map (fun x => (y, x)))

theorem frames_to_c_arrays_bitmap_eq_foldl (img : PackImage) :
    frames_to_c_arrays_bitmap img =
      (pixelPairs img).foldl (packStep img) (List.replicate bitmap_size 0) := by
  rw [frames_to_c_arrays_bitmap, pixelPairs]
  generalize List.replicate bitmap_size (0 : Nat) = init
  induction (List.range img.height) generalizing init with
  | nil => rfl
  | cons y ys ih =>
    simp only [List.foldl_cons, List.flatMap_cons, List.foldl_append,
      List.foldl_map]
    exact ih _

theorem length_packStep (img : PackImage) (bm : List Nat) (yx : Nat × Nat) :
    (packStep img bm yx).length = bm.length := by
  rw [packStep]
  split
  · split
    · exact bm.length_set _ _
    · rfl
  · rfl

theorem length_foldl_packStep (img : PackImage) :
    ∀ (ps : List (Nat × Nat)) (bm : List Nat),
      (ps.foldl (packStep img) bm).length = bm.length
  | [], _ => rfl
  | yx :: ps, bm => by
    rw [List.foldl_cons, length_foldl_packStep img ps, length_packStep]

/-- C2: the packer always produces a buffer of exactly `bitmap_size = 1024`
bytes, for every input image, whatever its dimensions and pixel content:
positions are zero-initialised before packing, bits are written only at
`byte_index < 1024`, and larger indices are dropped without resizing. -/
theorem packer_output_length_always_1024 (img : PackImage) :
    (frames_to_c_arrays_bitmap img).length = bitmap_size := by
  rw [frames_to_c_arrays_bitmap_eq_foldl, length_foldl_packStep,
    List.length_replicate]

theorem getD_set_self : ∀ (l : List Nat) (i v : Nat), i < l.length →
    (l.set i v).getD i 0 = v
  | [], i, _, h => absurd h (Nat.not_lt_zero i)
  | _ :: _, 0, _, _ => rfl
  | _ :: l, i + 1, v, h => getD_set_self l i v (Nat.lt_of_succ_lt_succ h)

theorem getD_set_ne : ∀ (l : List Nat) (i j v : Nat), i ≠ j →
    (l.set i v).getD j 0 = l.getD j 0
  | [], _, _, _, _ => rfl
  | _ :: _, 0, 0, _, h => absurd rfl h
  | _ :: _, 0, _ + 1, _, _ => rfl
  | _ :: _, _ + 1, 0, _, _ => rfl
  | _ :: l, i + 1, j + 1, v, h =>
    getD_set_ne l i j v (fun e => h (by rw [e]))

theorem getD_replicate : ∀ (n i : Nat), (List.replicate n (0 : Nat)).getD i 0 = 0
  | 0, 0 => rfl
  | 0, _ + 1 => rfl
  | _ + 1, 0 => rfl
  | n + 1, i + 1 => getD_replicate n i

/-- Proof device: the effect of one visited pixel on the byte at index `i`. -/
def packVal (img : PackImage) (i : Nat) (v : Nat) (yx : Nat × Nat) : Nat :=
  if (yx.1 / 8) * img.width + yx.2 = i ∧
      (yx.1 / 8) * img.width + yx.2 < bitmap_size ∧
      img.pixel yx.2 yx.1 = 0 then
    v ||| (1 <<< (yx.1 % 8))
  else v

theorem foldl_packStep_getD (img : PackImage) (i : Nat) :
    ∀ (ps : List (Nat × Nat)) (bm : List Nat), bm.length = bitmap_size →
      (ps.foldl (packStep img) bm).getD i 0 =
        ps.foldl (packVal img i) (bm.getD i 0)
  | [], _, _ => rfl
  | yx :: ps, bm, hlen => by
    rw [List.foldl_cons, List.foldl_cons,
      foldl_packStep_getD img i ps (packStep img bm yx)
        (by rw [length_packStep]; exact hlen)]
    congr 1
    rw [packStep, packVal]
    by_cases hb : (yx.1 / 8) * img.width + yx.2 < bitmap_size
    · by_cases hp : img.pixel yx.2 yx.1 = 0
      · by_cases hbi : (yx.1 / 8) * img.width + yx.2 = i
        · rw [if_pos hb, if_pos (by simp [hp]), if_pos ⟨hbi, hb, hp⟩, hbi,
            getD_set_self _ _ _ (by rw [hlen]; exact hbi ▸ hb)]
        · rw [if_pos hb, if_pos (by simp [hp]),
            if_neg (fun hc => hbi hc.1), getD_set_ne _ _ _ _ hbi]
      · rw [if_pos hb, if_neg (by simp [hp]),
          if_neg (fun hc => hp hc.2.2)]
    · rw [if_neg hb, if_neg (fun hc => hb hc.2.1)]

theorem foldl_packVal_testBit (img : PackImage) (i j : Nat) :
    ∀ (ps : List (Nat × Nat)) (v : Nat),
      (ps.foldl (packVal img i) v).testBit j =
        (v.testBit j || ps.any (fun yx =>
          decide ((yx.1 / 8) * img.width + yx.2 = i ∧
            (yx.1 / 8) * img.width + yx.2 < bitmap_size ∧
            yx.1 % 8 = j ∧ img.pixel yx.2 yx.1 = 0)))
  | [], v => by simp
  | yx :: ps, v => by
    rw [List.foldl_cons, foldl_packVal_testBit img i j ps _, List.any_cons]
    have hstep : (packVal img i v yx).testBit j =
        (v.testBit j || decide ((yx.1 / 8) * img.width + yx.2 = i ∧
          (yx.1 / 8) * img.width + yx.2 < bitmap_size ∧
          yx.1 % 8 = j ∧ img.pixel yx.2 yx.1 = 0)) := by
      rw [packVal]
      by_cases hc : (yx.1 / 8) * img.width + yx.2 = i ∧
          (yx.1 / 8) * img.width + yx.2 < bitmap_size ∧
          img.pixel yx.2 yx.1 = 0
      · obtain ⟨h1, h2, h3⟩ := hc
        have h2' : i < bitmap_size := h1 ▸ h2
        rw [if_pos ⟨h1, h2, h3⟩, Nat.testBit_or, Nat.one_shiftLeft,
          Nat.testBit_two_pow]
        simp [h1, h2', h3, eq_comm]
      · rw [if_neg hc,
          decide_eq_false (fun h4 => hc ⟨h4.1, h4.2.1, h4.2.2.2⟩)]
        simp
    rw [hstep, Bool.or_assoc]

/-- Full characterisation of the packed buffer: bit `j` of byte `i` is set
exactly when some visited pixel maps to that position (within capacity) and is
black. -/
theorem pack_testBit_eq_any (img : PackImage) (i j : Nat) :
    ((frames_to_c_arrays_bitmap img).getD i 0).testBit j =
      (pixelPairs img).any (fun yx =>
        decide ((yx.1 / 8) * img.width + yx.2 = i ∧
          (yx.1 / 8) * img.width + yx.2 < bitmap_size ∧
          yx.1 % 8 = j ∧ img.pixel yx.2 yx.1 = 0)) := by
  rw [frames_to_c_arrays_bitmap_eq_foldl,
    foldl_packStep_getD img i _ _ (List.length_replicate _ _),
    foldl_packVal_testBit, getD_replicate]
  simp

/-- For a 128×64 input, bit `j` of byte `i` records exactly whether the unique
pixel `(i % 128, 8 * (i / 128) + j)` is black. -/
theorem pack_testBit_128x64 (w h : Nat) (p : Nat → Nat → Nat)
    (hW : w = 128) (hH : h = 64) (i j : Nat) (hi : i < 1024) (hj : j < 8) :
    ((frames_to_c_arrays_bitmap ⟨w, h, p⟩).getD i 0).testBit j =
      decide (p (i % 128) (8 * (i / 128) + j) = 0) := by
  subst hW hH
  rw [pack_testBit_eq_any]
  by_cases hp : p (i % 128) (8 * (i / 128) + j) = 0
  · rw [decide_eq_true hp]
    rw [List.any_eq_true]
    refine ⟨(8 * (i / 128) + j, i % 128), ?_, ?_⟩
    · simp only [pixelPairs, List.mem_flatMap, List.mem_map, List.mem_range]
      exact ⟨8 * (i / 128) + j, by omega, i % 128, by omega, rfl⟩
    · simp only [decide_eq_true_eq]
      refine ⟨?_, ?_, ?_, hp⟩
      · show (8 * (i / 128) + j) / 8 * 128 + i % 128 = i
        omega
      · show (8 * (i / 128) + j) / 8 * 128 + i % 128 < bitmap_size
        rw [bitmap_size]; omega
      · show (8 * (i / 128) + j) % 8 = j
        omega
  · rw [decide_eq_false hp]
    rw [List.any_eq_false]
    rintro ⟨y, x⟩ hmem
    simp only [pixelPairs, List.mem_flatMap, List.mem_map, List.mem_range] at hmem
    obtain ⟨y', hy', x', hx', heq⟩ := hmem
    cases heq
    simp only [decide_eq_true_eq, not_and]
    intro hidx _ hbit hpix
    apply hp
    have hx : x = i % 128 := by omega
    have hy : y = 8 * (i / 128) + j := by omega
    rw [← hx, ← hy]
    exact hpix

/-- The per-pixel threshold of `convert_frames_to_monochrome`:
`img.point(lambda x: 255 if x > 128 else 0)` at threshold 128. -/
def threshold_point (v : Nat) : Nat := if v > 128 then 255 else 0

/-- The monochrome conversion applied to an already grayscale, already resized
image: every pixel is thresholded at luminance 128. -/
def convert_frames_to_monochrome_image (img : PackImage) : PackImage :=
  ⟨img.width, img.height, fun x y => threshold_point (img.pixel x y)⟩

theorem threshold_point_eq_zero (v : Nat) :
    (threshold_point v = 0) ↔ v ≤ 128 := by
  rw [threshold_point]
  by_cases hv : v > 128
  · simp only [if_pos hv]
    omega
  · rw [if_neg hv]
    exact ⟨fun _ => Nat.not_lt.mp hv, fun _ => rfl⟩

/-- C3: for every pixel `(x, y)` of the 128×64 monochrome image fed to the
packer, bit `y % 8` of output byte `(y / 8) * 128 + x` is set exactly when the
pixel's luminance after grayscale conversion and resize is at most 128; and no
other byte/bit position is affected by that pixel: two images agreeing
everywhere except `(x, y)` pack identically at every other position. -/
theorem packer_bit_encodes_thresholded_pixel
    (p q : Nat → Nat → Nat) (x y : Nat) (hx : x < 128) (hy : y < 64)
    (hagree : ∀ x' y', ¬(x' = x ∧ y' = y) → q x' y' = p x' y')
    (i j : Nat) (hi : i < 1024) (hj : j < 8)
    (hne : ¬(i = (y / 8) * 128 + x ∧ j = y % 8)) :
    (((frames_to_c_arrays_bitmap
          (convert_frames_to_monochrome_image ⟨128, 64, p⟩)).getD
        ((y / 8) * 128 + x) 0).testBit (y % 8) = decide (p x y ≤ 128)) ∧
    ((frames_to_c_arrays_bitmap
          (convert_frames_to_monochrome_image ⟨128, 64, q⟩)).getD i 0).testBit
        j =
      ((frames_to_c_arrays_bitmap
          (convert_frames_to_monochrome_image ⟨128, 64, p⟩)).getD i 0).testBit
        j := by
  constructor
  · rw [convert_frames_to_monochrome_image]
    rw [pack_testBit_128x64 128 64 _ rfl rfl ((y / 8) * 128 + x) (y % 8)
      (by omega) (by omega)]
    have hxx : ((y / 8) * 128 + x) % 128 = x := by omega
    have hyy : 8 * (((y / 8) * 128 + x) / 128) + y % 8 = y := by omega
    rw [hxx, hyy]
    by_cases hp : p x y ≤ 128
    · simp [threshold_point_eq_zero, hp]
    · simp [threshold_point_eq_zero, hp]
  · rw [convert_frames_to_monochrome_image, convert_frames_to_monochrome_image]
    rw [pack_testBit_128x64 128 64 _ rfl rfl i j hi hj,
      pack_testBit_128x64 128 64 _ rfl rfl i j hi hj]
    have hdec : ¬(i % 128 = x ∧ 8 * (i / 128) + j = y) := by
      rintro ⟨hx1, hy1⟩
      exact hne ⟨by omega, by omega⟩
    exact congrArg (fun v => decide (threshold_point v = 0))
      (hagree (i % 128) (8 * (i / 128) + j) hdec)

/-- Witness input for C3: a 128×64 grayscale image that is dark only at pixel
`(5, 9)`. -/
def demoPixelsA : Nat → Nat → Nat := fun _ _ => 200

/-- Witness input for C3: the same image with pixel `(5, 9)` made dark. -/
def demoPixelsB : Nat → Nat → Nat := fun x y =>
  if x = 5 ∧ y = 9 then 0 else 200

/-- Witness for C3, at pixel `(5, 9)` and the unrelated position
`(byte 0, bit 0)`. -/
theorem packer_bit_encodes_thresholded_pixel_witness :
    (((frames_to_c_arrays_bitmap
          (convert_frames_to_monochrome_image ⟨128, 64, demoPixelsA⟩)).getD
        ((9 / 8) * 128 + 5) 0).testBit (9 % 8) =
      decide (demoPixelsA 5 9 ≤ 128)) ∧
    ((frames_to_c_arrays_bitmap
          (convert_frames_to_monochrome_image ⟨128, 64, demoPixelsB⟩)).getD 0
        0).testBit 0 =
      ((frames_to_c_arrays_bitmap
          (convert_frames_to_monochrome_image ⟨128, 64, demoPixelsA⟩)).getD 0
        0).testBit 0 :=
  packer_bit_encodes_thresholded_pixel demoPixelsA demoPixelsB 5 9
    (by decide) (by decide)
    (fun x' y' h => by
      rw [demoPixelsB, demoPixelsA]
      exact if_neg h)
    0 0 (by decide) (by decide) (by decide)

/-- C10: when the input image has exactly the OLED dimensions 128×64, every
computed `byte_index = (y / 8) * 128 + x` is below the 1024-byte capacity, so
the bounds check never drops a pixel and the packed buffer losslessly encodes
every pixel: bit `y % 8` of byte `(y / 8) * 128 + x` recovers whether pixel
`(x, y)` is black. -/
theorem packer_128x64_never_drops (p : Nat → Nat → Nat) (x y : Nat)
    (hx : x < 128) (hy : y < 64) :
    ((y / 8) * 128 + x < bitmap_size) ∧
    (((frames_to_c_arrays_bitmap ⟨128, 64, p⟩).getD
        ((y / 8) * 128 + x) 0).testBit (y % 8) = decide (p x y = 0)) := by
  refine ⟨by rw [bitmap_size]; omega, ?_⟩
  rw [pack_testBit_128x64 128 64 p rfl rfl ((y / 8) * 128 + x) (y % 8)
    (by omega) (by omega)]
  have hxx : ((y / 8) * 128 + x) % 128 = x := by omega
  have hyy : 8 * (((y / 8) * 128 + x) / 128) + y % 8 = y := by omega
  rw [hxx, hyy]

/-- Witness for C10 at pixel `(5, 9)` of the almost-white demo image. -/
theorem packer_128x64_never_drops_witness :
    ((9 / 8) * 128 + 5 < bitmap_size) ∧
    (((frames_to_c_arrays_bitmap ⟨128, 64, demoPixelsB⟩).getD
        ((9 / 8) * 128 + 5) 0).testBit (9 % 8) =
      decide (demoPixelsB 5 9 = 0)) :=
  packer_128x64_never_drops demoPixelsB 5 9 (by decide) (by decide)

/-! ## Timing extractor (`get_svg_animation_params`) -/

/-- Model of a pattern matching at the head of a character list. -/
def matchesAt : List Char → List Char → Bool
  | [], _ => true
  | _ :: _, [] => false
  | p :: ps, c :: cs => p == c && matchesAt ps cs

/-- Model of the Python substring test `pat in s` on character lists. -/
def hasSub (pat : List Char) : List Char → Bool
  | [] => pat.isEmpty
  | c :: rest => matchesAt pat (c :: rest) || hasSub pat rest

/-- Python `sub in s` for strings. -/
def pyInStr (sub s : String) : Bool := hasSub sub.data s.data

/-- Model of Python `s.replace(pat, "")`: remove every non-overlapping
occurrence of `pat`, scanning left to right. The `fuel` argument only drives
structural recursion; `fuel = l.length` always suffices. -/
def removeAllAux (pat : List Char) : Nat → List Char → List Char
  | _, [] => []
  | 0, l => l
  | fuel + 1, c :: rest =>
    if !pat.isEmpty && matchesAt pat (c :: rest) then
      removeAllAux pat fuel (rest.drop (pat.length - 1))
    else c :: removeAllAux pat fuel rest

/-- Python `s.replace(pat, "")` on character lists. -/
def removeAll (pat l : List Char) : List Char := removeAllAux pat l.length l

/-- Python `s.replace(pat, "")` on strings. -/
def pyReplaceDel (s pat : String) : String := String.mk (removeAll pat.data s.data)

/-- Value of a digit string (most significant first). -/
def digitsVal (l : List Char) : Nat :=
  l.foldl (fun a c => 10 * a + (c.toNat - '0'.toNat)) 0

/-- Model of Python `float(s)` on unsigned plain decimal numerals
(`"2"`, `"2."`, `".5"`, `"0.0017"`): exact rational value, `none` on any
other input (so e.g. `"500m"` raises `ValueError`, as in Python). -/
def pyFloatCore (l : List Char) : Option ℚ :=
  let ip := l.takeWhile (fun c => c != '.')
  let rest := l.dropWhile (fun c => c != '.')
  match rest with
  | [] =>
    if !ip.isEmpty && ip.all (fun c => c.isDigit) then
      some ((digitsVal ip : ℚ))
    else none
  | _ :: frac =>
    if (!ip.isEmpty || !frac.isEmpty) && ip.all (fun c => c.isDigit) &&
        frac.all (fun c => c.isDigit) then
      some ((digitsVal ip : ℚ) + (digitsVal frac : ℚ) / ((10 : ℚ) ^ frac.length))
    else none

/-- Model of Python `float(s)` including an optional leading sign. -/
def pyFloat (s : String) : Option ℚ :=
  match s.data with
  | '+' :: rest => pyFloatCore rest
  | '-' :: rest => (pyFloatCore rest).map (fun q => -q)
  | l => pyFloatCore l

/-- Python `int(f)` on an exact rational: truncation toward zero. -/
def pyIntOfRat (q : ℚ) : Int :=
  if q < 0 then -((-q).num / ((-q).den : Int)) else q.num / (q.den : Int)

/-- The default animation duration constant `ANIM_DURATION = 2000` ms. -/
def ANIM_DURATION : Int := 2000

/-- Embedding of `get_svg_animation_params`, from the point where the regex
scan has produced the list of `dur="..."` attribute values (in order): take
the first, check `'s' in dur_str` then `'ms' in dur_str`, parse the value with
the unit characters removed, and fall back to `ANIM_DURATION` when nothing
parses (Python's `float` `ValueError` is caught by the enclosing `except`). -/
def get_svg_animation_params (animations : List String) : Int :=
  match animations with
  | [] => ANIM_DURATION
  | dur_str :: _ =>
    if pyInStr "s" dur_str then
      match pyFloat (pyReplaceDel dur_str "s") with
      | some q => pyIntOfRat (q * 1000)
      | none => ANIM_DURATION
    else if pyInStr "ms" dur_str then
      match pyFloat (pyReplaceDel dur_str "ms") with
      | some q => pyIntOfRat q
      | none => ANIM_DURATION
    else ANIM_DURATION

theorem hasSub_of_matchesAt (p : List Char) :
    ∀ l : List Char, matchesAt p l = true → hasSub p l = true := by
  intro l h
  match l with
  | [] =>
    match p with
    | [] => rfl
    | _ :: _ => exact absurd h (by rw [matchesAt]; exact Bool.false_ne_true)
  | c :: rest =>
    rw [hasSub, h, Bool.true_or]

theorem hasSub_s_of_ms :
    ∀ l : List Char, hasSub ['m', 's'] l = true → hasSub ['s'] l = true
  | [], h => absurd h (by rw [hasSub]; exact Bool.false_ne_true)
  | c :: rest, h => by
    rw [hasSub] at h ⊢
    rcases Bool.or_eq_true_iff.mp h with h1 | h2
    · rw [matchesAt, Bool.and_eq_true] at h1
      exact Or.inr (hasSub_of_matchesAt ['s'] rest h1.2) |>
        fun o => Bool.or_eq_true_iff.mpr o
    · exact Bool.or_eq_true_iff.mpr (Or.inr (hasSub_s_of_ms rest h2))

theorem pyIntOfRat_pos (q : ℚ) (h : 1 ≤ q) : 0 < pyIntOfRat q := by
  have h0 : ¬q < 0 := not_lt.mpr (le_trans zero_le_one h)
  rw [pyIntOfRat, if_neg h0, ← Rat.floor_def]
  exact lt_of_lt_of_le Int.zero_lt_one (Int.le_floor.mpr (by exact_mod_cast h))

section RatEval

attribute [local semireducible] Rat.mul Rat.add Rat.sub Rat.inv

/-- Counterexample to C6: a millisecond duration is NOT taken as-is — since
`'s' in "500ms"` is true, the code strips every `'s'`, fails to parse
`"500m"`, and falls back to the 2000 ms default; and a parsed value is
truncated toward zero, not rounded to nearest: `"0.0017s"` (1.7 ms) yields 1,
not 2. -/
theorem timing_ms_not_as_is_and_truncates :
    (get_svg_animation_params ["500ms"] = 2000 ∧
      get_svg_animation_params ["500ms"] ≠ 500) ∧
    (get_svg_animation_params ["0.0017s"] = 1 ∧
      get_svg_animation_params ["0.0017s"] ≠ 2) :=
  ⟨⟨by decide, by decide⟩, ⟨by decide, by decide⟩⟩

/-- C6 (amended): the extractor returns, for the first declared duration
attribute: when the value contains the letter `s` (which includes every `ms`
value), the numeric value parsed after deleting all `s` characters, times
1000, truncated toward zero — `ms` values therefore generally fail to parse
and yield the default 2000; when the value contains no `s` at all (the `ms`
branch being unreachable), or when nothing was declared, the default 2000. -/
theorem timing_extractor_first_attr (animations : List String) (d : String)
    (hd : animations.head? = some d) :
    get_svg_animation_params animations =
      (if pyInStr "s" d = true then
        match pyFloat (pyReplaceDel d "s") with
        | some q => pyIntOfRat (q * 1000)
        | none => ANIM_DURATION
      else ANIM_DURATION) := by
  match animations with
  | [] => simp at hd
  | d0 :: rest =>
    have hdd : d0 = d := by simpa using hd
    subst hdd
    rw [get_svg_animation_params]
    by_cases hs : pyInStr "s" d0 = true
    · rw [if_pos hs, if_pos hs]
    · rw [if_neg hs, if_neg hs]
      have hms : ¬(pyInStr "ms" d0 = true) := fun hm =>
        hs (hasSub_s_of_ms d0.data hm)
      rw [if_neg hms]

/-- Witness for the amended C6 at the input `["500ms"]`. -/
theorem timing_extractor_first_attr_witness :
    get_svg_animation_params ["500ms"] =
      (if pyInStr "s" "500ms" = true then
        match pyFloat (pyReplaceDel "500ms" "s") with
        | some q => pyIntOfRat (q * 1000)
        | none => ANIM_DURATION
      else ANIM_DURATION) :=
  timing_extractor_first_attr ["500ms"] "500ms" rfl

/-- Counterexample to C7: the source text `<animate dur="0s" .../>` produces
a declared duration list `["0s"]`, and the extractor returns 0 — not a
strictly positive integer. -/
theorem timing_zero_duration_returns_zero :
    get_svg_animation_params ["0s"] = 0 ∧
      ¬(0 < get_svg_animation_params ["0s"]) :=
  ⟨by decide, by decide⟩

/-- C7 (amended): the extractor's result is strictly positive provided that,
whenever the first declared duration contains `s` and its value parses (after
deleting all `s` characters) to a rational `q`, `q * 1000 ≥ 1` — i.e. the
declared duration is at least one millisecond. Zero, negative or
sub-millisecond declared durations can produce a zero or negative result; all
default paths return 2000 > 0. -/
theorem timing_positive_unless_small_duration (animations : List String)
    (hpos : ∀ d, animations.head? = some d → pyInStr "s" d = true →
      ∀ q : ℚ, pyFloat (pyReplaceDel d "s") = some q → 1 ≤ q * 1000) :
    0 < get_svg_animation_params animations := by
  match animations with
  | [] => decide
  | d :: rest =>
    rw [get_svg_animation_params]
    by_cases hs : pyInStr "s" d = true
    · rw [if_pos hs]
      match hq : pyFloat (pyReplaceDel d "s") with
      | some q => exact pyIntOfRat_pos (q * 1000) (hpos d rfl hs q hq)
      | none => decide
    · rw [if_neg hs]
      have hms : ¬(pyInStr "ms" d = true) := fun hm =>
        hs (hasSub_s_of_ms d.data hm)
      rw [if_neg hms]
      decide

/-- Witness for the amended C7 at the input `["2s"]`. -/
theorem timing_positive_unless_small_duration_witness :
    0 < get_svg_animation_params ["2s"] :=
  timing_positive_unless_small_duration ["2s"]
    (fun d hd hs q hq => by
      cases Option.some.inj hd
      have h2 : pyFloat (pyReplaceDel "2s" "s") = some (2 : ℚ) := by decide
      rw [h2] at hq
      cases Option.some.inj hq
      decide)

end RatEval

/-! ## Per-icon control flow of `main` (asset table builder) -/

/-- Outcomes of the external effects for one (condition, variant) iteration of
`main`'s processing loop: whether the SVG file exists, the frames returned by
`extract_svg_frames` with the extracted duration, the monochrome frame files
returned by `convert_frames_to_monochrome`, and whether `frames_to_c_arrays`
runs without raising internally (on an internal exception it returns the
error value `("", 0)`). -/
structure IconJob where
  condition : String
  variant : String
  svgExists : Bool
  framePaths : List String
  durationMs : Int
  monochromePaths : List String
  packOk : Bool
deriving DecidableEq

/-- The frame count returned by `frames_to_c_arrays`: `len(frame_paths)` on
success, and 0 from the `except` branch `return "", 0`. -/
def frames_to_c_arrays_count (paths : List String) (ok : Bool) : Nat :=
  if ok then paths.length else 0

/-- Python `int(duration_ms / frame_count)`: raises `ZeroDivisionError` when
`frame_count = 0`, otherwise the true quotient truncated toward zero (modelled
exactly over `ℚ`; exact for the magnitudes the pipeline produces). -/
def pyDivInt (d : Int) (c : Nat) : Except String Int :=
  if c = 0 then .error "ZeroDivisionError"
  else .ok (pyIntOfRat ((d : ℚ) / (c : ℚ)))

/-- One record appended to `processed_icons` by `main`. -/
structure ProcessedIcon where
  condition : String
  variant : String
  oled_frame_count : Nat
  frame_delay : Int
deriving DecidableEq

/-- Embedding of `main`'s per-icon loop: skip when the SVG is missing, skip
when no frames were extracted, append nothing when no monochrome frames were
produced, and otherwise append a record whose count comes from
`frames_to_c_arrays` and whose delay is `int(duration_ms / frame_count)`.
An uncaught exception (the division by zero) aborts the whole loop. -/
def processIcons : List IconJob → Except String (List ProcessedIcon)
  | [] => .ok []
  | job :: rest =>
    if job.svgExists = false then processIcons rest
    else if job.framePaths.isEmpty then processIcons rest
    else if job.monochromePaths.isEmpty then processIcons rest
    else
      match pyDivInt job.durationMs
          (frames_to_c_arrays_count job.monochromePaths job.packOk) with
      | .error e => .error e
      | .ok delay =>
        match processIcons rest with
        | .error e => .error e
        | .ok tbl =>
          .ok (⟨job.condition, job.variant,
            frames_to_c_arrays_count job.monochromePaths job.packOk,
            delay⟩ :: tbl)

section RatEval2

attribute [local semireducible] Rat.mul Rat.add Rat.sub Rat.inv

/-- An icon iteration whose monochrome conversion produced one frame but whose
`frames_to_c_arrays` call raised internally, returning `("", 0)`. -/
def packFailJob : IconJob :=
  ⟨"cloudy", "", true, ["frame_000.png"], 2000, ["cloudy_frame_000.png"], false⟩

/-- A fully successful icon iteration with 2 monochrome frames. -/
def okJob : IconJob :=
  ⟨"pouring", "", true, ["frame_000.png"], 2000,
    ["pouring_frame_000.png", "pouring_frame_001.png"], true⟩

/-- C5 is a code bug: when `frames_to_c_arrays` fails after monochrome frames
were produced, it returns frame count 0, and `main` computes
`int(duration_ms / 0)` — a `ZeroDivisionError` that aborts the run, so the
delay computation CAN divide by zero; on the successful path the recorded
delay is the truncated quotient of the duration by the actual produced count
(2000 / 2 = 1000 here). -/
theorem frame_delay_division_by_zero :
    processIcons [packFailJob] = .error "ZeroDivisionError" ∧
    processIcons [okJob] = .ok [⟨"pouring", "", 2, 1000⟩] := by
  constructor
  · rfl
  · rfl

/-- An icon iteration whose SVG source file does not exist. -/
def missingSvgJob : IconJob :=
  ⟨"fog", "", false, [], 2000, [], true⟩

/-- An icon iteration where frame extraction produced no frames. -/
def noFramesJob : IconJob :=
  ⟨"hail", "", true, [], 2000, [], true⟩

/-- A second pack-failure iteration, followed in the run by `okJob2`. -/
def packFailJob2 : IconJob :=
  ⟨"snowy", "", true, ["frame_000.png"], 2000, ["snowy_frame_000.png"], false⟩

/-- A successful icon iteration scheduled after the failing ones. -/
def okJob2 : IconJob :=
  ⟨"windy", "", true, ["frame_000.png"], 1500, ["windy_frame_000.png"], true⟩

/-- C8 is a code bug: a missing source file and an empty extraction do degrade
to skipping that icon while the next icon is still processed, but an internal
`frames_to_c_arrays` failure makes `main` raise `ZeroDivisionError`, aborting
the run and preventing the processing of every subsequent icon. -/
theorem icon_failure_aborts_subsequent_icons :
    processIcons [missingSvgJob, okJob2] = .ok [⟨"windy", "", 1, 1500⟩] ∧
    processIcons [noFramesJob, okJob2] = .ok [⟨"windy", "", 1, 1500⟩] ∧
    processIcons [okJob2] = .ok [⟨"windy", "", 1, 1500⟩] ∧
    processIcons [packFailJob2, okJob2] = .error "ZeroDivisionError" := by
  refine ⟨rfl, rfl, rfl, rfl⟩

end RatEval2

/-! ## Synthetic frame transform of `extract_svg_frames` -/

noncomputable section FrameTransform

/-- The per-frame progress of `extract_svg_frames`:
`i / (frame_count - 1) if frame_count > 1 else 0`. Python's float arithmetic
is modelled exactly over `ℝ`. -/
def progress (i frame_count : Nat) : ℝ :=
  if 1 < frame_count then (i : ℝ) / ((frame_count : ℝ) - 1) else 0

/-- Python `int()` on a real: truncation toward zero. -/
def realTrunc (x : ℝ) : ℤ := if x < 0 then ⌈x⌉ else ⌊x⌋

/-- The computed (clamped) opacity
`max(155, min(255, int(155 + 100 * sin(progress * 2 * pi))))` — computed by
the code but never applied to the frame. -/
def frame_opacity (i N : Nat) : ℤ :=
  max 155 (min 255 (realTrunc (155 + 100 * Real.sin (progress i N * 2 * Real.pi))))

/-- The horizontal paste offset `int(5 * sin(progress * 2 * pi))`. -/
def offset_x (i N : Nat) : ℤ :=
  realTrunc (5 * Real.sin (progress i N * 2 * Real.pi))

/-- The vertical paste offset `int(5 * cos(progress * 2 * pi))`. -/
def offset_y (i N : Nat) : ℤ :=
  realTrunc (5 * Real.cos (progress i N * 2 * Real.pi))

/-- Frame `i` of `N`: the base image pasted at the computed offset onto a
transparent canvas (`base` maps a coordinate to its RGBA value, 0 meaning
transparent, outside its canvas). -/
def pasteFrame (base : ℤ × ℤ → Nat) (i N : Nat) : ℤ × ℤ → Nat :=
  fun p => base (p.1 - offset_x i N, p.2 - offset_y i N)

theorem progress_zero (N : Nat) : progress 0 N = 0 := by
  rw [progress]
  split
  · rw [Nat.cast_zero, zero_div]
  · rfl

theorem progress_last (N : Nat) (h : 2 ≤ N) : progress (N - 1) N = 1 := by
  rw [progress, if_pos (by omega : 1 < N)]
  have hN1 : ((N - 1 : Nat) : ℝ) = (N : ℝ) - 1 := by
    push_cast [Nat.cast_sub (by omega : 1 ≤ N)]
    ring
  rw [hN1]
  refine div_self ?_
  have h2 : (2 : ℝ) ≤ (N : ℝ) := by exact_mod_cast h
  linarith

theorem angle_zero (N : Nat) : progress 0 N * 2 * Real.pi = 0 := by
  rw [progress_zero]; ring

theorem angle_last (N : Nat) (h : 2 ≤ N) :
    progress (N - 1) N * 2 * Real.pi = 2 * Real.pi := by
  rw [progress_last N h]; ring

theorem realTrunc_zero : realTrunc 0 = 0 := by
  rw [realTrunc, if_neg (lt_irrefl (0 : ℝ)), Int.floor_zero]

theorem realTrunc_five : realTrunc 5 = 5 := by
  rw [realTrunc, if_neg (by norm_num : ¬(5 : ℝ) < 0)]
  have h : ((5 : ℤ) : ℝ) = (5 : ℝ) := by norm_num
  rw [← h, Int.floor_intCast]

theorem realTrunc_155 : realTrunc 155 = 155 := by
  rw [realTrunc, if_neg (by norm_num : ¬(155 : ℝ) < 0)]
  have h : ((155 : ℤ) : ℝ) = (155 : ℝ) := by norm_num
  rw [← h, Int.floor_intCast]

theorem offset_x_first (N : Nat) : offset_x 0 N = 0 := by
  rw [offset_x, angle_zero, Real.sin_zero, mul_zero, realTrunc_zero]

theorem offset_x_last (N : Nat) (h : 2 ≤ N) : offset_x (N - 1) N = 0 := by
  rw [offset_x, angle_last N h, Real.sin_two_pi, mul_zero, realTrunc_zero]

theorem offset_y_first (N : Nat) : offset_y 0 N = 5 := by
  rw [offset_y, angle_zero, Real.cos_zero, mul_one, realTrunc_five]

theorem offset_y_last (N : Nat) (h : 2 ≤ N) : offset_y (N - 1) N = 5 := by
  rw [offset_y, angle_last N h, Real.cos_two_pi, mul_one, realTrunc_five]

theorem frame_opacity_first (N : Nat) : frame_opacity 0 N = 155 := by
  rw [frame_opacity, angle_zero, Real.sin_zero, mul_zero, add_zero,
    realTrunc_155, min_eq_right (by norm_num : (155 : ℤ) ≤ 255), max_self]

theorem frame_opacity_last (N : Nat) (h : 2 ≤ N) :
    frame_opacity (N - 1) N = 155 := by
  rw [frame_opacity, angle_last N h, Real.sin_two_pi, mul_zero, add_zero,
    realTrunc_155, min_eq_right (by norm_num : (155 : ℤ) ≤ 255), max_self]

/-- A concrete non-constant base image, opaque white at the origin only. -/
def demoBase : ℤ × ℤ → Nat := fun p => if p = (0, 0) then 255 else 0

/-- Counterexample to C9: at the pipeline's frame count N = 10, the first
frame (i = 0) and the last frame (i = 9) receive the same paste offsets
(0, 5) and the same computed opacity 155, so they are identical — the frame
sequence duplicates its loop endpoint instead of producing pairwise
distinguishable frames. -/
theorem frame_sampler_endpoints_coincide :
    (offset_x 0 10 = offset_x 9 10) ∧ (offset_y 0 10 = offset_y 9 10) ∧
    (frame_opacity 0 10 = frame_opacity 9 10) ∧
    (pasteFrame demoBase 0 10 = pasteFrame demoBase 9 10) := by
  have hx : offset_x 9 10 = 0 := offset_x_last 10 (by norm_num)
  have hy : offset_y 9 10 = 5 := offset_y_last 10 (by norm_num)
  have ho : frame_opacity 9 10 = 155 := frame_opacity_last 10 (by norm_num)
  refine ⟨?_, ?_, ?_, ?_⟩
  · rw [offset_x_first, hx]
  · rw [offset_y_first, hy]
  · rw [frame_opacity_first, ho]
  · funext p
    rw [pasteFrame, pasteFrame, offset_x_first, hx, offset_y_first, hy]

/-- C9 (amended): the synthetic cyclic transform is keyed by
`progress = i / (N - 1)`, and its modulation functions have period 1 in
progress, so for every N ≥ 2 the transform at i = 0 equals the transform at
i = N - 1: the first and last frames are identical (offsets (0, 5), opacity
155 — the latter computed but never applied), duplicating the loop endpoint
rather than yielding pairwise distinguishable frames. -/
theorem frame_sampler_endpoint_duplication (N : Nat) (hN : 2 ≤ N)
    (base : ℤ × ℤ → Nat) :
    offset_x 0 N = offset_x (N - 1) N ∧
    offset_y 0 N = offset_y (N - 1) N ∧
    frame_opacity 0 N = frame_opacity (N - 1) N ∧
    pasteFrame base 0 N = pasteFrame base (N - 1) N := by
  refine ⟨?_, ?_, ?_, ?_⟩
  · rw [offset_x_first, offset_x_last N hN]
  · rw [offset_y_first, offset_y_last N hN]
  · rw [frame_opacity_first, frame_opacity_last N hN]
  · funext p
    rw [pasteFrame, pasteFrame, offset_x_first, offset_x_last N hN,
      offset_y_first, offset_y_last N hN]

/-- Witness for the amended C9 at N = 5 with the demo base image. -/
theorem frame_sampler_endpoint_duplication_witness :
    offset_x 0 5 = offset_x 4 5 ∧
    offset_y 0 5 = offset_y 4 5 ∧
    frame_opacity 0 5 = frame_opacity 4 5 ∧
    pasteFrame demoBase 0 5 = pasteFrame demoBase 4 5 :=
  frame_sampler_endpoint_duplication 5 (by norm_num) demoBase

end FrameTransform

end WeatherAnimations
